import Mathlib

/-!
Verification of the tiling / patch-inference core of
`nodes/MakeCropsDetectThem.py` (YOLO-Patch-Based-Inference).

The Python source is shallowly embedded:
* Python machine arithmetic on image sizes is modelled with `ℤ`;
  the float arithmetic of `get_crops_xy` (overlap coefficients, step
  and canvas computations) is modelled with exact rationals `ℚ`.
* Python `int(...)` (truncation toward zero) is `pyInt`; Python 3
  `round(...)` (round half to even) is `pyRound`; float division by
  zero raises `ZeroDivisionError`, modelled by `pyDiv` in `Except`.
* numpy arrays are modelled by buffers in a heap `Heap`; numpy basic
  slicing yields a *view* (a buffer id plus a window offset), while
  `.copy()` and `cv2.resize` allocate fresh buffers.
-/

namespace YoloPatch

/-- Python `int()` applied to a float value: truncation toward zero. -/
def pyInt (q : ℚ) : ℤ := if 0 ≤ q then ⌊q⌋ else ⌈q⌉

/-- Python 3 `round()` applied to a float value: round half to even. -/
def pyRound (q : ℚ) : ℤ :=
  if q - ⌊q⌋ < 1/2 then ⌊q⌋
  else if 1/2 < q - ⌊q⌋ then ⌊q⌋ + 1
  else if ⌊q⌋ % 2 = 0 then ⌊q⌋ else ⌊q⌋ + 1

/-- Runtime errors that can escape `get_crops_xy`: Python's
`ZeroDivisionError` (float division by `0.0`) and OpenCV's `cv2.error`
(raised by `cv2.resize` on an empty source or a non-positive target size). -/
inductive PyError where
  | zeroDivisionError
  | cvError
deriving DecidableEq

/-- Python float division: raises `ZeroDivisionError` on a zero divisor. -/
def pyDiv (a b : ℚ) : Except PyError ℚ :=
  if b = 0 then Except.error PyError.zeroDivisionError else Except.ok (a / b)

/-- numpy basic-slice endpoint normalisation for an axis of length `n`:
negative indices wrap once, then the index is clipped to `[0, n]`. -/
def npClip (n i : ℤ) : ℤ := if i < 0 then max 0 (i + n) else min i n

/-- Length of the numpy basic slice `a[start:stop]` on an axis of length `n`. -/
def npSliceLen (n start stop : ℤ) : ℤ := max 0 (npClip n stop - npClip n start)

/-- Buffer id of the caller's input array (`image_full` argument, line 90). -/
def callerBuf : ℕ := 0

/-- Buffer id of `image_innitial = image_full.copy()` (line 125):
a fresh buffer holding a copy of the caller's pixels. -/
def innitialBuf : ℕ := 1

/-- Buffer id of the resized canvas `image_full = cv2.resize(...)` (line 126):
a fresh buffer produced by the resampler. -/
def resizedBuf : ℕ := 2

/-- One element of the list built by `get_crops_xy` (lines 154-161), i.e. the
constructor arguments of `CropElement`.  Images are represented by the buffer
they reference: `crop=im_temp` stores the numpy *view*
`image_full[y_start:y_start+shape_y, x_start:x_start+shape_x]` (line 145), so
the record keeps the resized canvas's buffer id plus the window offsets
`x_start`/`y_start`; the window's actual pixel dimensions under numpy slice
semantics are recorded in `crop_h`/`crop_w`. -/
structure CropRecord where
  source_image : ℕ
  source_image_resized : ℕ
  cropBuf : ℕ
  crop_h : ℤ
  crop_w : ℤ
  number_of_crop : ℤ
  x_start : ℤ
  y_start : ℤ
deriving DecidableEq

/-- Result of `get_crops_xy`: the step counts and resized-canvas size computed
at lines 120-124, and the list of emitted crop records. -/
structure GridOut where
  y_steps : ℤ
  x_steps : ℤ
  y_new : ℤ
  x_new : ℤ
  crops : List CropRecord
deriving DecidableEq

/-- `cross_koef_x = 1 - (overlap_x / 100)` (lines 115-116). -/
def cross_koef (overlap : ℚ) : ℚ := 1 - overlap / 100

/-- The quotient fed to `int()` at lines 120-121:
`(image_full.shape[.] - shape) / (shape * cross_koef)`. -/
def stepsQ (dim shape : ℤ) (cross : ℚ) : ℚ :=
  ((dim : ℚ) - (shape : ℚ)) / ((shape : ℚ) * cross)

/-- `y_steps = int((shape[0] - shape_y) / (shape_y * cross_koef_y)) + 1`
(lines 120-121). -/
def steps (dim shape : ℤ) (cross : ℚ) : ℤ := pyInt (stepsQ dim shape cross) + 1

/-- `y_new = round((y_steps-1) * (shape_y * cross_koef_y) + shape_y)`
(lines 123-124). -/
def newDim (stepCount shape : ℤ) (cross : ℚ) : ℤ :=
  pyRound (((stepCount : ℚ) - 1) * ((shape : ℚ) * cross) + (shape : ℚ))

/-- `x_start = int(shape_x * j * cross_koef_x)` (lines 134-135). -/
def cellStart (shape : ℤ) (idx : ℕ) (cross : ℚ) : ℤ :=
  pyInt ((shape : ℚ) * (idx : ℚ) * cross)

/-- The nested loop of lines 132-143: for each grid cell in row-major order,
compute the start offsets and drop the cell when a residual check fires
(`x_start + shape_x > image_full.shape[1]`, lines 138-143). -/
def gridCells (x_steps y_steps x_new y_new shape_x shape_y : ℤ)
    (cross_x cross_y : ℚ) : List (ℤ × ℤ) :=
  (List.range y_steps.toNat).flatMap fun i =>
    (List.range x_steps.toNat).filterMap fun j =>
      let x_start := cellStart shape_x j cross_x
      let y_start := cellStart shape_y i cross_y
      if x_start + shape_x > x_new then none
      else if y_start + shape_y > y_new then none
      else some (x_start, y_start)

/-- Lines 145-161: each surviving cell is turned into a record.  `count` is
incremented before the append (line 152), so the `k`-th emitted record carries
`number_of_crop = k + 1`.  The crop is the slice view into the resized canvas. -/
def mkCrops (x_new y_new shape_x shape_y : ℤ) :
    ℕ → List (ℤ × ℤ) → List CropRecord
  | _, [] => []
  | count, p :: ps =>
      { source_image := innitialBuf
        source_image_resized := resizedBuf
        cropBuf := resizedBuf
        crop_h := npSliceLen y_new p.2 (p.2 + shape_y)
        crop_w := npSliceLen x_new p.1 (p.1 + shape_x)
        number_of_crop := (count : ℤ) + 1
        x_start := p.1
        y_start := p.2 } :: mkCrops x_new y_new shape_x shape_y (count + 1) ps

/-- `MakeCropsDetectThem.get_crops_xy` (lines 88-167), geometry part.
Order of effects follows the source: the `y` division (line 120), the `x`
division (line 121), the canvas size (lines 123-124), then `cv2.resize`
(line 126), which raises `cv2.error` when the source image is empty or the
target size is non-positive; finally the nested generation loop. -/
def get_crops_xy (h w shape_x shape_y : ℤ) (overlap_x overlap_y : ℚ) :
    Except PyError GridOut := do
  let qy ← pyDiv ((h : ℚ) - (shape_y : ℚ)) ((shape_y : ℚ) * cross_koef overlap_y)
  let y_steps := pyInt qy + 1
  let qx ← pyDiv ((w : ℚ) - (shape_x : ℚ)) ((shape_x : ℚ) * cross_koef overlap_x)
  let x_steps := pyInt qx + 1
  let y_new := newDim y_steps shape_y (cross_koef overlap_y)
  let x_new := newDim x_steps shape_x (cross_koef overlap_x)
  if h ≤ 0 ∨ w ≤ 0 ∨ x_new ≤ 0 ∨ y_new ≤ 0 then throw PyError.cvError
  pure { y_steps := y_steps
         x_steps := x_steps
         y_new := y_new
         x_new := x_new
         crops := mkCrops x_new y_new shape_x shape_y 0
           (gridCells x_steps y_steps x_new y_new shape_x shape_y
             (cross_koef overlap_x) (cross_koef overlap_y)) }

/-- Closed form of the successful result of `get_crops_xy`. -/
def gridOutOf (h w shape_x shape_y : ℤ) (overlap_x overlap_y : ℚ) : GridOut :=
  let cy := cross_koef overlap_y
  let cx := cross_koef overlap_x
  let ys := steps h shape_y cy
  let xs := steps w shape_x cx
  let yn := newDim ys shape_y cy
  let xn := newDim xs shape_x cx
  { y_steps := ys
    x_steps := xs
    y_new := yn
    x_new := xn
    crops := mkCrops xn yn shape_x shape_y 0
      (gridCells xs ys xn yn shape_x shape_y cx cy) }

/-! ### Basic facts about the Python primitives -/

theorem pyInt_of_nonneg {q : ℚ} (h : 0 ≤ q) : pyInt q = ⌊q⌋ := if_pos h

theorem pyInt_of_neg {q : ℚ} (h : q < 0) : pyInt q = ⌈q⌉ := if_neg (not_le.mpr h)

theorem pyInt_intCast (n : ℤ) : pyInt ((n : ℚ)) = n := by
  unfold pyInt
  split <;> simp

theorem floor_le_pyRound (q : ℚ) : ⌊q⌋ ≤ pyRound q := by
  unfold pyRound
  split
  · exact le_refl _
  · split
    · exact Int.le.intro 1 rfl
    · split
      · exact le_refl _
      · exact Int.le.intro 1 rfl

theorem pyRound_le_ceil (q : ℚ) : pyRound q ≤ ⌈q⌉ := by
  have hfc : ⌊q⌋ ≤ ⌈q⌉ := Int.floor_le_ceil q
  unfold pyRound
  split
  · exact hfc
  · have hlt : ⌊q⌋ < q := by
      have h2 : (1:ℚ)/2 ≤ q - ⌊q⌋ := le_of_not_lt (by assumption)
      have : (0:ℚ) < q - ⌊q⌋ := lt_of_lt_of_le (by norm_num) h2
      linarith
    have hc : ⌊q⌋ + 1 ≤ ⌈q⌉ := by
      have h1 : (⌊q⌋ : ℚ) < ⌈q⌉ := lt_of_lt_of_le hlt (Int.le_ceil q)
      exact_mod_cast Int.add_one_le_of_lt (by exact_mod_cast h1)
    split
    · exact hc
    · split
      · exact hfc
      · exact hc

theorem pyRound_intCast (n : ℤ) : pyRound ((n : ℚ)) = n := by
  unfold pyRound
  rw [Int.floor_intCast]
  rw [if_pos (by norm_num)]

theorem pyRound_le_of_le {q : ℚ} {n : ℤ} (h : q ≤ (n : ℚ)) : pyRound q ≤ n := by
  calc pyRound q ≤ ⌈q⌉ := pyRound_le_ceil q
    _ ≤ ⌈((n : ℚ))⌉ := Int.ceil_le_ceil h
    _ = n := Int.ceil_intCast n

theorem cross_koef_pos {ov : ℚ} (h : ov < 100) : 0 < cross_koef ov := by
  unfold cross_koef
  have : ov / 100 < 1 := (div_lt_one (by norm_num : (0:ℚ) < 100)).mpr h
  linarith

theorem cross_koef_le_one {ov : ℚ} (h : 0 ≤ ov) : cross_koef ov ≤ 1 := by
  unfold cross_koef
  have : 0 ≤ ov / 100 := by positivity
  linarith

/-! ### The tile-start bound: the residual checks of lines 138-143 never fire -/

theorem shape_add_floor_le_newDim (stepCount shape : ℤ) (cross : ℚ) :
    ⌊((stepCount : ℚ) - 1) * ((shape : ℚ) * cross)⌋ + shape ≤ newDim stepCount shape cross := by
  unfold newDim
  have h1 : ⌊((stepCount : ℚ) - 1) * ((shape : ℚ) * cross) + (shape : ℚ)⌋ =
      ⌊((stepCount : ℚ) - 1) * ((shape : ℚ) * cross)⌋ + shape := Int.floor_add_int _ _
  have h2 := floor_le_pyRound (((stepCount : ℚ) - 1) * ((shape : ℚ) * cross) + (shape : ℚ))
  omega

theorem cellStart_eq_floor {shape : ℤ} {cross : ℚ} (hs : 0 ≤ shape) (hc : 0 ≤ cross)
    (j : ℕ) : cellStart shape j cross = ⌊(j : ℚ) * ((shape : ℚ) * cross)⌋ := by
  unfold cellStart
  have harg : (shape : ℚ) * (j : ℚ) * cross = (j : ℚ) * ((shape : ℚ) * cross) := by ring
  rw [harg, pyInt_of_nonneg]
  positivity

theorem cellStart_nonneg {shape : ℤ} {cross : ℚ} (hs : 0 ≤ shape) (hc : 0 ≤ cross)
    (j : ℕ) : 0 ≤ cellStart shape j cross := by
  rw [cellStart_eq_floor hs hc]
  exact Int.floor_nonneg.mpr (by positivity)

/-- Any loop cell `j < stepCount` places its tile inside the resized canvas:
`x_start + shape ≤ newDim`.  This is the reason the residual branches at
lines 138-143 are dead for every cell the loop visits. -/
theorem cellStart_add_shape_le_newDim {shape stepCount : ℤ} {cross : ℚ}
    (hs : 0 ≤ shape) (hc : 0 ≤ cross) {j : ℕ} (hj : (j : ℤ) < stepCount) :
    cellStart shape j cross + shape ≤ newDim stepCount shape cross := by
  rw [cellStart_eq_floor hs hc]
  have hmono : ⌊(j : ℚ) * ((shape : ℚ) * cross)⌋ ≤
      ⌊((stepCount : ℚ) - 1) * ((shape : ℚ) * cross)⌋ := by
    apply Int.floor_le_floor
    apply mul_le_mul_of_nonneg_right _ (by positivity)
    have : (j : ℤ) ≤ stepCount - 1 := by omega
    have hq : ((j : ℤ) : ℚ) ≤ ((stepCount - 1 : ℤ) : ℚ) := by exact_mod_cast this
    push_cast at hq ⊢
    linarith
  have := shape_add_floor_le_newDim stepCount shape cross
  omega

theorem steps_ge_one {dim shape : ℤ} {cross : ℚ} (hs : 0 < shape) (hc : 0 < cross)
    (hd : shape ≤ dim) : 1 ≤ steps dim shape cross := by
  unfold steps
  have hq : 0 ≤ stepsQ dim shape cross := by
    unfold stepsQ
    apply div_nonneg
    · have : (shape : ℚ) ≤ (dim : ℚ) := by exact_mod_cast hd
      linarith
    · have : (0:ℚ) < shape := by exact_mod_cast hs
      positivity
  rw [pyInt_of_nonneg hq]
  have := Int.floor_nonneg.mpr hq
  omega

theorem shape_le_newDim {stepCount shape : ℤ} {cross : ℚ}
    (hs : 0 ≤ shape) (hc : 0 ≤ cross) (hn : 1 ≤ stepCount) :
    shape ≤ newDim stepCount shape cross := by
  have h0 : (0 : ℤ) ≤ ⌊((stepCount : ℚ) - 1) * ((shape : ℚ) * cross)⌋ := by
    apply Int.floor_nonneg.mpr
    apply mul_nonneg _ (by positivity)
    have : (1 : ℚ) ≤ (stepCount : ℚ) := by exact_mod_cast hn
    linarith
  have := shape_add_floor_le_newDim stepCount shape cross
  omega

/-- The canvas never grows past the source dimension once the source holds at
least one full tile: `newDim ≤ dim` whenever `shape ≤ dim`. -/
theorem newDim_le_dim {dim shape : ℤ} {cross : ℚ} (hs : 0 < shape) (hc : 0 < cross)
    (hd : shape ≤ dim) : newDim (steps dim shape cross) shape cross ≤ dim := by
  have hspos : (0:ℚ) < (shape : ℚ) := by exact_mod_cast hs
  have hdenpos : (0:ℚ) < (shape : ℚ) * cross := by positivity
  have hq : 0 ≤ stepsQ dim shape cross := by
    unfold stepsQ
    apply div_nonneg
    · have : (shape : ℚ) ≤ (dim : ℚ) := by exact_mod_cast hd
      linarith
    · positivity
  have hsteps : steps dim shape cross = ⌊stepsQ dim shape cross⌋ + 1 := by
    unfold steps; rw [pyInt_of_nonneg hq]
  unfold newDim
  apply pyRound_le_of_le
  rw [hsteps]
  have hfloor : (⌊stepsQ dim shape cross⌋ : ℚ) ≤ stepsQ dim shape cross :=
    Int.floor_le _
  have harg : ((⌊stepsQ dim shape cross⌋ + 1 : ℤ) : ℚ) - 1 =
      (⌊stepsQ dim shape cross⌋ : ℚ) := by push_cast; ring
  rw [harg]
  have hmul : (⌊stepsQ dim shape cross⌋ : ℚ) * ((shape : ℚ) * cross) ≤
      stepsQ dim shape cross * ((shape : ℚ) * cross) :=
    mul_le_mul_of_nonneg_right hfloor (le_of_lt hdenpos)
  have hqs : stepsQ dim shape cross * ((shape : ℚ) * cross) = (dim : ℚ) - shape := by
    unfold stepsQ
    field_simp
  nlinarith [hmul, hqs]

/-! ### Structure of `gridCells` and `mkCrops` -/

theorem filterMap_eq_map_of_some {α β : Type _} {f : α → Option β} {g : α → β}
    (l : List α) (h : ∀ a ∈ l, f a = some (g a)) : l.filterMap f = l.map g := by
  induction l with
  | nil => rfl
  | cons a l ih =>
      rw [List.filterMap_cons, h a (List.mem_cons_self a l), List.map_cons,
        ih fun b hb => h b (List.mem_cons_of_mem a hb)]

theorem length_flatMap_const {α β : Type _} {f : α → List β} {m : ℕ}
    (l : List α) (h : ∀ a ∈ l, (f a).length = m) : (l.flatMap f).length = l.length * m := by
  induction l with
  | nil => simp
  | cons a l ih =>
      rw [List.flatMap_cons, List.length_append, h a (List.mem_cons_self a l),
        ih fun b hb => h b (List.mem_cons_of_mem a hb), List.length_cons]
      ring

/-- When every visited cell passes the residual checks, `gridCells` is the
full row-major grid of start offsets. -/
theorem gridCells_eq_of_fits {x_steps y_steps x_new y_new shape_x shape_y : ℤ}
    {cross_x cross_y : ℚ}
    (hx : ∀ j : ℕ, (j : ℤ) < x_steps → cellStart shape_x j cross_x + shape_x ≤ x_new)
    (hy : ∀ i : ℕ, (i : ℤ) < y_steps → cellStart shape_y i cross_y + shape_y ≤ y_new) :
    gridCells x_steps y_steps x_new y_new shape_x shape_y cross_x cross_y =
      (List.range y_steps.toNat).flatMap fun i =>
        (List.range x_steps.toNat).map fun j =>
          (cellStart shape_x j cross_x, cellStart shape_y i cross_y) := by
  unfold gridCells
  unfold List.flatMap
  congr 1
  apply List.map_congr_left
  intro i hi
  have hiz : (i : ℤ) < y_steps := by
    have := List.mem_range.mp hi
    omega
  apply filterMap_eq_map_of_some
  intro j hj
  have hjz : (j : ℤ) < x_steps := by
    have := List.mem_range.mp hj
    omega
  simp only
  rw [if_neg (not_lt.mpr (hx j hjz)), if_neg (not_lt.mpr (hy i hiz))]

theorem length_mkCrops (x_new y_new shape_x shape_y : ℤ) (n : ℕ) (cells : List (ℤ × ℤ)) :
    (mkCrops x_new y_new shape_x shape_y n cells).length = cells.length := by
  induction cells generalizing n with
  | nil => rfl
  | cons p ps ih => simp [mkCrops, ih]

theorem get_mkCrops (x_new y_new shape_x shape_y : ℤ) (n : ℕ) (cells : List (ℤ × ℤ))
    (k : ℕ) (hk : k < (mkCrops x_new y_new shape_x shape_y n cells).length)
    (hk' : k < cells.length) :
    (mkCrops x_new y_new shape_x shape_y n cells).get ⟨k, hk⟩ =
      { source_image := innitialBuf
        source_image_resized := resizedBuf
        cropBuf := resizedBuf
        crop_h := npSliceLen y_new (cells.get ⟨k, hk'⟩).2 ((cells.get ⟨k, hk'⟩).2 + shape_y)
        crop_w := npSliceLen x_new (cells.get ⟨k, hk'⟩).1 ((cells.get ⟨k, hk'⟩).1 + shape_x)
        number_of_crop := (n : ℤ) + (k : ℤ) + 1
        x_start := (cells.get ⟨k, hk'⟩).1
        y_start := (cells.get ⟨k, hk'⟩).2 } := by
  induction cells generalizing n k with
  | nil => exact absurd hk' (Nat.not_lt_zero k)
  | cons p ps ih =>
      cases k with
      | zero => simp [mkCrops]
      | succ m =>
          have hm : m < (mkCrops x_new y_new shape_x shape_y (n + 1) ps).length := by
            simpa [mkCrops, length_mkCrops] using hk
          have hm' : m < ps.length := by simpa using hk'
          have := ih (n + 1) m hm hm'
          simp only [mkCrops, List.get_cons_succ]
          rw [this]
          congr 1
          push_cast
          ring

theorem mem_mkCrops {x_new y_new shape_x shape_y : ℤ} {n : ℕ} {cells : List (ℤ × ℤ)}
    {r : CropRecord} (hr : r ∈ mkCrops x_new y_new shape_x shape_y n cells) :
    ∃ p ∈ cells,
      r.source_image = innitialBuf ∧ r.source_image_resized = resizedBuf ∧
      r.cropBuf = resizedBuf ∧ r.x_start = p.1 ∧ r.y_start = p.2 ∧
      r.crop_h = npSliceLen y_new p.2 (p.2 + shape_y) ∧
      r.crop_w = npSliceLen x_new p.1 (p.1 + shape_x) := by
  induction cells generalizing n with
  | nil => exact absurd hr (List.not_mem_nil r)
  | cons p ps ih =>
      rcases List.mem_cons.mp hr with h | h
      · exact ⟨p, List.mem_cons_self p ps, by rw [h], by rw [h], by rw [h], by rw [h],
          by rw [h], by rw [h], by rw [h]⟩
      · obtain ⟨q, hq, hprops⟩ := ih h
        exact ⟨q, List.mem_cons_of_mem p hq, hprops⟩

/-! ### Success and failure characterisation of `get_crops_xy` -/

/-- Whenever the two float divisions have non-zero divisors and `cv2.resize`
accepts its arguments, `get_crops_xy` returns the closed-form grid. -/
theorem get_crops_xy_eq_ok {h w shape_x shape_y : ℤ} {overlap_x overlap_y : ℚ}
    (hdy : (shape_y : ℚ) * cross_koef overlap_y ≠ 0)
    (hdx : (shape_x : ℚ) * cross_koef overlap_x ≠ 0)
    (hh : 0 < h) (hw : 0 < w)
    (hxn : 0 < (gridOutOf h w shape_x shape_y overlap_x overlap_y).x_new)
    (hyn : 0 < (gridOutOf h w shape_x shape_y overlap_x overlap_y).y_new) :
    get_crops_xy h w shape_x shape_y overlap_x overlap_y =
      Except.ok (gridOutOf h w shape_x shape_y overlap_x overlap_y) := by
  unfold get_crops_xy
  rw [pyDiv, if_neg hdy, pyDiv, if_neg hdx]
  simp only [gridOutOf] at hxn hyn ⊢
  simp only [Bind.bind, Except.bind]
  rw [if_neg]
  · rfl
  · push_neg
    exact ⟨not_le.mp (by simpa using not_le.mpr hh), by omega, by
        simpa [steps, stepsQ] using hxn, by simpa [steps, stepsQ] using hyn⟩

/-- Inversion of the successful run: an `ok` result is the closed-form grid. -/
theorem get_crops_xy_ok_inv {h w shape_x shape_y : ℤ} {overlap_x overlap_y : ℚ}
    {out : GridOut}
    (hout : get_crops_xy h w shape_x shape_y overlap_x overlap_y = Except.ok out) :
    out = gridOutOf h w shape_x shape_y overlap_x overlap_y := by
  unfold get_crops_xy at hout
  by_cases hdy : (shape_y : ℚ) * cross_koef overlap_y = 0
  · rw [pyDiv, if_pos hdy] at hout
    exact absurd hout (by simp [Bind.bind, Except.bind])
  by_cases hdx : (shape_x : ℚ) * cross_koef overlap_x = 0
  · rw [pyDiv, if_neg hdy, pyDiv, if_pos hdx] at hout
    exact absurd hout (by simp [Bind.bind, Except.bind])
  rw [pyDiv, if_neg hdy, pyDiv, if_neg hdx] at hout
  simp only [Bind.bind, Except.bind] at hout
  split at hout
  · exact absurd hout (by simp [throw, throwThe, MonadExceptOf.throw])
  · simp only [pure, Except.pure, Except.ok.injEq] at hout
    rw [← hout]
    rfl

theorem npSliceLen_eq_of_fits {n start size : ℤ} (h0 : 0 ≤ start) (hsz : 0 ≤ size)
    (hn : start + size ≤ n) : npSliceLen n start (start + size) = size := by
  unfold npSliceLen npClip
  rw [if_neg (by omega : ¬ start + size < 0), if_neg (by omega : ¬ start < 0),
    min_eq_left hn, min_eq_left (by omega : start ≤ n)]
  omega

theorem cellStart_zero (shape : ℤ) (cross : ℚ) : cellStart shape 0 cross = 0 := by
  unfold cellStart
  rw [Nat.cast_zero, mul_zero, zero_mul, pyInt_of_nonneg le_rfl, Int.floor_zero]

/-- Every cell emitted by the loop passed both residual checks and is a pair of
`cellStart` offsets for in-range grid indices. -/
theorem mem_gridCells {x_steps y_steps x_new y_new shape_x shape_y : ℤ}
    {cross_x cross_y : ℚ} {p : ℤ × ℤ}
    (hp : p ∈ gridCells x_steps y_steps x_new y_new shape_x shape_y cross_x cross_y) :
    p.1 + shape_x ≤ x_new ∧ p.2 + shape_y ≤ y_new ∧
      ∃ i j : ℕ, (i : ℤ) < y_steps ∧ (j : ℤ) < x_steps ∧
        p = (cellStart shape_x j cross_x, cellStart shape_y i cross_y) := by
  unfold gridCells at hp
  obtain ⟨i, hi, hpi⟩ := List.mem_flatMap.mp hp
  obtain ⟨j, hj, hpj⟩ := List.mem_filterMap.mp hpi
  simp only at hpj
  by_cases hgx : cellStart shape_x j cross_x + shape_x > x_new
  · rw [if_pos hgx] at hpj
    exact absurd hpj (by simp)
  rw [if_neg hgx] at hpj
  by_cases hgy : cellStart shape_y i cross_y + shape_y > y_new
  · rw [if_pos hgy] at hpj
    exact absurd hpj (by simp)
  rw [if_neg hgy, Option.some.injEq] at hpj
  refine ⟨by rw [← hpj]; exact not_lt.mp hgx, by rw [← hpj]; exact not_lt.mp hgy,
    i, j, ?_, ?_, hpj.symm⟩
  · have := List.mem_range.mp hi
    omega
  · have := List.mem_range.mp hj
    omega

theorem gridOutOf_y_steps (h w shape_x shape_y : ℤ) (overlap_x overlap_y : ℚ) :
    (gridOutOf h w shape_x shape_y overlap_x overlap_y).y_steps =
      steps h shape_y (cross_koef overlap_y) := rfl

theorem gridOutOf_x_steps (h w shape_x shape_y : ℤ) (overlap_x overlap_y : ℚ) :
    (gridOutOf h w shape_x shape_y overlap_x overlap_y).x_steps =
      steps w shape_x (cross_koef overlap_x) := rfl

theorem gridOutOf_y_new (h w shape_x shape_y : ℤ) (overlap_x overlap_y : ℚ) :
    (gridOutOf h w shape_x shape_y overlap_x overlap_y).y_new =
      newDim (steps h shape_y (cross_koef overlap_y)) shape_y (cross_koef overlap_y) := rfl

theorem gridOutOf_x_new (h w shape_x shape_y : ℤ) (overlap_x overlap_y : ℚ) :
    (gridOutOf h w shape_x shape_y overlap_x overlap_y).x_new =
      newDim (steps w shape_x (cross_koef overlap_x)) shape_x (cross_koef overlap_x) := rfl

theorem gridOutOf_crops (h w shape_x shape_y : ℤ) (overlap_x overlap_y : ℚ) :
    (gridOutOf h w shape_x shape_y overlap_x overlap_y).crops =
      mkCrops (newDim (steps w shape_x (cross_koef overlap_x)) shape_x (cross_koef overlap_x))
        (newDim (steps h shape_y (cross_koef overlap_y)) shape_y (cross_koef overlap_y))
        shape_x shape_y 0
        (gridCells (steps w shape_x (cross_koef overlap_x))
          (steps h shape_y (cross_koef overlap_y))
          (newDim (steps w shape_x (cross_koef overlap_x)) shape_x (cross_koef overlap_x))
          (newDim (steps h shape_y (cross_koef overlap_y)) shape_y (cross_koef overlap_y))
          shape_x shape_y (cross_koef overlap_x) (cross_koef overlap_y)) := rfl

theorem steps_eq_floor {dim shape : ℤ} {cross : ℚ} (hs : 0 < shape) (hc : 0 < cross)
    (hd : shape ≤ dim) :
    steps dim shape cross = ⌊((dim : ℚ) - (shape : ℚ)) / ((shape : ℚ) * cross)⌋ + 1 := by
  unfold steps stepsQ
  rw [pyInt_of_nonneg]
  apply div_nonneg
  · have : (shape : ℚ) ≤ (dim : ℚ) := by exact_mod_cast hd
    linarith
  · have : (0:ℚ) < (shape : ℚ) := by exact_mod_cast hs
    positivity

theorem numbering_mkCrops (x_new y_new shape_x shape_y : ℤ) (n : ℕ) (cells : List (ℤ × ℤ)) :
    (mkCrops x_new y_new shape_x shape_y n cells).map CropRecord.number_of_crop =
      (List.range cells.length).map (fun k : ℕ => (n : ℤ) + (k : ℤ) + 1) := by
  induction cells generalizing n with
  | nil => rfl
  | cons p ps ih =>
      simp only [mkCrops, List.map_cons, List.length_cons, List.range_succ_eq_map,
        List.map_map, ih]
      refine List.cons_eq_cons.mpr ⟨by push_cast; ring, ?_⟩
      apply List.map_congr_left
      intro a _
      simp only [Function.comp_apply]
      push_cast
      ring

/-- C5: for a valid config on an image at least one tile in each dimension,
`get_crops_xy` succeeds, the step counts match the spec formula
`floor((dim - shape) / (shape * cross)) + 1`, the output has exactly
`x_steps * y_steps` records (no residual skip is ever taken), and the
`number_of_crop` indices are contiguous from 1 in generation order. -/
theorem crops_count_eq_steps_and_indices_contiguous
    {h w shape_x shape_y : ℤ} {overlap_x overlap_y : ℚ}
    (hsx : 0 < shape_x) (hsy : 0 < shape_y)
    (hox0 : 0 ≤ overlap_x) (hox1 : overlap_x < 100)
    (hoy0 : 0 ≤ overlap_y) (hoy1 : overlap_y < 100)
    (hw : shape_x ≤ w) (hh : shape_y ≤ h) :
    ∃ out, get_crops_xy h w shape_x shape_y overlap_x overlap_y = Except.ok out ∧
      out.x_steps = ⌊((w : ℚ) - (shape_x : ℚ)) / ((shape_x : ℚ) * (1 - overlap_x / 100))⌋ + 1 ∧
      out.y_steps = ⌊((h : ℚ) - (shape_y : ℚ)) / ((shape_y : ℚ) * (1 - overlap_y / 100))⌋ + 1 ∧
      out.crops.length = (out.x_steps * out.y_steps).toNat ∧
      out.crops.map CropRecord.number_of_crop =
        (List.range out.crops.length).map (fun k : ℕ => (k : ℤ) + 1) := by
  have hcx : 0 < cross_koef overlap_x := cross_koef_pos hox1
  have hcy : 0 < cross_koef overlap_y := cross_koef_pos hoy1
  have hsxq : (0:ℚ) < (shape_x : ℚ) := by exact_mod_cast hsx
  have hsyq : (0:ℚ) < (shape_y : ℚ) := by exact_mod_cast hsy
  have hdx : (shape_x : ℚ) * cross_koef overlap_x ≠ 0 := (mul_pos hsxq hcx).ne'
  have hdy : (shape_y : ℚ) * cross_koef overlap_y ≠ 0 := (mul_pos hsyq hcy).ne'
  have hxs1 : 1 ≤ steps w shape_x (cross_koef overlap_x) := steps_ge_one hsx hcx hw
  have hys1 : 1 ≤ steps h shape_y (cross_koef overlap_y) := steps_ge_one hsy hcy hh
  have hxn : shape_x ≤ newDim (steps w shape_x (cross_koef overlap_x)) shape_x
      (cross_koef overlap_x) := shape_le_newDim hsx.le hcx.le hxs1
  have hyn : shape_y ≤ newDim (steps h shape_y (cross_koef overlap_y)) shape_y
      (cross_koef overlap_y) := shape_le_newDim hsy.le hcy.le hys1
  have hok : get_crops_xy h w shape_x shape_y overlap_x overlap_y =
      Except.ok (gridOutOf h w shape_x shape_y overlap_x overlap_y) :=
    get_crops_xy_eq_ok hdy hdx (by omega) (by omega)
      (by rw [gridOutOf_x_new]; omega) (by rw [gridOutOf_y_new]; omega)
  refine ⟨_, hok, ?_, ?_, ?_, ?_⟩
  · rw [gridOutOf_x_steps, steps_eq_floor hsx hcx hw, cross_koef]
  · rw [gridOutOf_y_steps, steps_eq_floor hsy hcy hh, cross_koef]
  · rw [gridOutOf_crops, length_mkCrops,
      gridCells_eq_of_fits
        (fun j hj => cellStart_add_shape_le_newDim hsx.le hcx.le hj)
        (fun i hi => cellStart_add_shape_le_newDim hsy.le hcy.le hi),
      length_flatMap_const _
        (fun i _ => by rw [List.length_map, List.length_range]),
      List.length_range, gridOutOf_x_steps, gridOutOf_y_steps]
    obtain ⟨a, ha⟩ := Int.eq_ofNat_of_zero_le
      (by omega : (0:ℤ) ≤ steps w shape_x (cross_koef overlap_x))
    obtain ⟨b, hb⟩ := Int.eq_ofNat_of_zero_le
      (by omega : (0:ℤ) ≤ steps h shape_y (cross_koef overlap_y))
    rw [ha, hb, Int.toNat_ofNat, Int.toNat_ofNat, ← Nat.cast_mul, Int.toNat_ofNat]
    ring
  · rw [gridOutOf_crops, numbering_mkCrops, length_mkCrops]
    apply List.map_congr_left
    intro a _
    rw [Nat.cast_zero, zero_add]

/-! ### Evaluation helpers for concrete inputs -/

theorem pyInt_eq_of_nonneg_bounds {q : ℚ} {n : ℤ} (h0 : 0 ≤ q)
    (h1 : (n : ℚ) ≤ q) (h2 : q < (n : ℚ) + 1) : pyInt q = n := by
  rw [pyInt_of_nonneg h0]
  exact Int.floor_eq_iff.mpr ⟨h1, by push_cast; exact h2⟩

theorem pyInt_eq_of_neg_bounds {q : ℚ} {n : ℤ} (h0 : q < 0)
    (h1 : (n : ℚ) - 1 < q) (h2 : q ≤ (n : ℚ)) : pyInt q = n := by
  rw [pyInt_of_neg h0]
  exact Int.ceil_eq_iff.mpr ⟨by push_cast; exact h1, h2⟩

theorem steps_eq_of_cast {dim shape : ℤ} {cross : ℚ} {n : ℤ}
    (h : stepsQ dim shape cross = (n : ℚ)) : steps dim shape cross = n + 1 := by
  unfold steps
  rw [h, pyInt_intCast]

theorem newDim_eq_of_cast {stepCount shape : ℤ} {cross : ℚ} {n : ℤ}
    (h : ((stepCount : ℚ) - 1) * ((shape : ℚ) * cross) + (shape : ℚ) = (n : ℚ)) :
    newDim stepCount shape cross = n := by
  unfold newDim
  rw [h, pyRound_intCast]

theorem cellStart_eq_of_cast {shape : ℤ} {idx : ℕ} {cross : ℚ} {n : ℤ}
    (h : (shape : ℚ) * (idx : ℚ) * cross = (n : ℚ)) : cellStart shape idx cross = n := by
  unfold cellStart
  rw [h, pyInt_intCast]

theorem newDim_one (shape : ℤ) (cross : ℚ) : newDim 1 shape cross = shape :=
  newDim_eq_of_cast (by push_cast; ring)

/-- Full evaluation of the 1000x1000 / 500 / 0-overlap scenario. -/
theorem scenario1000_eval : get_crops_xy 1000 1000 500 500 0 0 =
    Except.ok
      { y_steps := 2
        x_steps := 2
        y_new := 1000
        x_new := 1000
        crops := [⟨innitialBuf, resizedBuf, resizedBuf, 500, 500, 1, 0, 0⟩,
                  ⟨innitialBuf, resizedBuf, resizedBuf, 500, 500, 2, 500, 0⟩,
                  ⟨innitialBuf, resizedBuf, resizedBuf, 500, 500, 3, 0, 500⟩,
                  ⟨innitialBuf, resizedBuf, resizedBuf, 500, 500, 4, 500, 500⟩] } := by
  have hc : cross_koef 0 = 1 := by norm_num [cross_koef]
  have hst : steps 1000 500 (cross_koef 0) = 2 := by
    have h1 : stepsQ 1000 500 (cross_koef 0) = ((1 : ℤ) : ℚ) := by
      rw [hc]; norm_num [stepsQ]
    rw [steps_eq_of_cast h1]
    norm_num
  have hnd : newDim 2 500 (cross_koef 0) = 1000 :=
    newDim_eq_of_cast (by rw [hc]; push_cast; norm_num)
  have hc0 : cellStart 500 0 (cross_koef 0) = 0 := cellStart_zero _ _
  have hc1 : cellStart 500 1 (cross_koef 0) = 500 :=
    cellStart_eq_of_cast (by rw [hc]; push_cast; norm_num)
  have hcells : gridCells 2 2 1000 1000 500 500 (cross_koef 0) (cross_koef 0) =
      [(0, 0), (500, 0), (0, 500), (500, 500)] := by
    rw [gridCells_eq_of_fits
      (fun j hj => by
        have : j = 0 ∨ j = 1 := by omega
        rcases this with h | h <;> subst h
        · rw [hc0]; norm_num
        · rw [hc1]; norm_num)
      (fun i hi => by
        have : i = 0 ∨ i = 1 := by omega
        rcases this with h | h <;> subst h
        · rw [hc0]; norm_num
        · rw [hc1]; norm_num)]
    show (List.range 2).flatMap _ = _
    simp [List.range_succ, hc0, hc1]
  have hok : get_crops_xy 1000 1000 500 500 0 0 =
      Except.ok (gridOutOf 1000 1000 500 500 0 0) :=
    get_crops_xy_eq_ok (by rw [hc]; norm_num) (by rw [hc]; norm_num)
      (by norm_num) (by norm_num)
      (by rw [gridOutOf_x_new, hst, hnd]; norm_num)
      (by rw [gridOutOf_y_new, hst, hnd]; norm_num)
  rw [hok]
  congr 1
  show gridOutOf 1000 1000 500 500 0 0 = _
  unfold gridOutOf
  dsimp only
  rw [hst, hnd, hcells]
  norm_num [mkCrops, npSliceLen, npClip]

/-- C7: for a 1000x1000 image with 500x500 tiles and zero overlap,
`get_crops_xy` computes `x_steps = y_steps = 2`, a 1000x1000 resized canvas,
and exactly 4 tiles at row-major origins (0,0), (500,0), (0,500), (500,500). -/
theorem scenario_1000x1000_shape500_overlap0 :
    ∃ out, get_crops_xy 1000 1000 500 500 0 0 = Except.ok out ∧
      out.x_steps = 2 ∧ out.y_steps = 2 ∧ out.x_new = 1000 ∧ out.y_new = 1000 ∧
      out.crops.length = 4 ∧
      out.crops.map (fun r => (r.x_start, r.y_start)) =
        [(0, 0), (500, 0), (0, 500), (500, 500)] := by
  refine ⟨_, scenario1000_eval, rfl, rfl, rfl, rfl, rfl, ?_⟩
  simp

/-- C1 counterexample: a 1000x1000 image with 700x700 tiles and 25% overlap
is *downsampled*: the resized canvas is 700x700, strictly smaller than the
input, refuting the claim that the canvas dimensions are always >= the
input dimensions. -/
theorem resized_canvas_smaller_than_input :
    (get_crops_xy 1000 1000 700 700 25 25).toOption.map GridOut.x_new = some 700 ∧
      (get_crops_xy 1000 1000 700 700 25 25).toOption.map GridOut.y_new = some 700 ∧
      (700 : ℤ) < 1000 := by
  have hc : cross_koef 25 = 3/4 := by norm_num [cross_koef]
  have hst : steps 1000 700 (cross_koef 25) = 1 := by
    have h0 : (0:ℚ) ≤ stepsQ 1000 700 (cross_koef 25) := by
      rw [hc]; norm_num [stepsQ]
    have h1 : pyInt (stepsQ 1000 700 (cross_koef 25)) = 0 := by
      apply pyInt_eq_of_nonneg_bounds h0 <;> rw [hc] <;> norm_num [stepsQ]
    unfold steps
    rw [h1]
    norm_num
  have hok : get_crops_xy 1000 1000 700 700 25 25 =
      Except.ok (gridOutOf 1000 1000 700 700 25 25) :=
    get_crops_xy_eq_ok (by rw [hc]; norm_num) (by rw [hc]; norm_num)
      (by norm_num) (by norm_num)
      (by rw [gridOutOf_x_new, hst, newDim_one]; norm_num)
      (by rw [gridOutOf_y_new, hst, newDim_one]; norm_num)
  rw [hok]
  refine ⟨?_, ?_, by norm_num⟩
  · show Option.map GridOut.x_new (some (gridOutOf 1000 1000 700 700 25 25)) = some 700
    rw [Option.map_some', gridOutOf_x_new, hst, newDim_one]
  · show Option.map GridOut.y_new (some (gridOutOf 1000 1000 700 700 25 25)) = some 700
    rw [Option.map_some', gridOutOf_y_new, hst, newDim_one]

/-- C1 amended: for a valid config on an image holding at least one full tile
in each dimension, the resized canvas never exceeds the input dimensions
(`x_new <= width`, `y_new <= height`): the resize is a downsample or identity.
(When the image is smaller than one tile, the canvas is the tile size and the
resize upsamples instead.) -/
theorem resized_canvas_le_input_when_tile_fits
    {h w shape_x shape_y : ℤ} {overlap_x overlap_y : ℚ}
    (hsx : 0 < shape_x) (hsy : 0 < shape_y)
    (hox0 : 0 ≤ overlap_x) (hox1 : overlap_x < 100)
    (hoy0 : 0 ≤ overlap_y) (hoy1 : overlap_y < 100)
    (hw : shape_x ≤ w) (hh : shape_y ≤ h) :
    ∃ out, get_crops_xy h w shape_x shape_y overlap_x overlap_y = Except.ok out ∧
      out.x_new ≤ w ∧ out.y_new ≤ h := by
  have hcx : 0 < cross_koef overlap_x := cross_koef_pos hox1
  have hcy : 0 < cross_koef overlap_y := cross_koef_pos hoy1
  have hsxq : (0:ℚ) < (shape_x : ℚ) := by exact_mod_cast hsx
  have hsyq : (0:ℚ) < (shape_y : ℚ) := by exact_mod_cast hsy
  have hxs1 : 1 ≤ steps w shape_x (cross_koef overlap_x) := steps_ge_one hsx hcx hw
  have hys1 : 1 ≤ steps h shape_y (cross_koef overlap_y) := steps_ge_one hsy hcy hh
  have hxn : shape_x ≤ newDim (steps w shape_x (cross_koef overlap_x)) shape_x
      (cross_koef overlap_x) := shape_le_newDim hsx.le hcx.le hxs1
  have hyn : shape_y ≤ newDim (steps h shape_y (cross_koef overlap_y)) shape_y
      (cross_koef overlap_y) := shape_le_newDim hsy.le hcy.le hys1
  have hok : get_crops_xy h w shape_x shape_y overlap_x overlap_y =
      Except.ok (gridOutOf h w shape_x shape_y overlap_x overlap_y) :=
    get_crops_xy_eq_ok (mul_pos hsyq hcy).ne' (mul_pos hsxq hcx).ne'
      (by omega) (by omega)
      (by rw [gridOutOf_x_new]; omega) (by rw [gridOutOf_y_new]; omega)
  refine ⟨_, hok, ?_, ?_⟩
  · rw [gridOutOf_x_new]
    exact newDim_le_dim hsx hcx hw
  · rw [gridOutOf_y_new]
    exact newDim_le_dim hsy hcy hh

/-- C1 amended, witness: at the 1000x1000 / 700 / 25% instance the canvas is
at most 1000x1000 (it is in fact 700x700). -/
theorem resized_canvas_le_input_witness :
    ∃ out, get_crops_xy 1000 1000 700 700 25 25 = Except.ok out ∧
      out.x_new ≤ 1000 ∧ out.y_new ≤ 1000 :=
  resized_canvas_le_input_when_tile_fits (by norm_num) (by norm_num) (by norm_num)
    (by norm_num) (by norm_num) (by norm_num) (by norm_num) (by norm_num)

/-- C2 counterexample: a 40x40 image with 100x100 tiles and 50% overlap makes
both truncated quotients equal -1, so both step counts are 0 and
`get_crops_xy` returns an *empty* crop list - no clamping to one tile
happens, refuting the claim that a single covering tile is always produced. -/
theorem small_image_empty_crops :
    (get_crops_xy 40 40 100 100 50 50).toOption.map (fun o => o.crops.length) =
      some 0 := by
  have hc : cross_koef 50 = 1/2 := by norm_num [cross_koef]
  have hst : steps 40 100 (cross_koef 50) = 0 := by
    have h1 : pyInt (stepsQ 40 100 (cross_koef 50)) = -1 := by
      apply pyInt_eq_of_neg_bounds <;> rw [hc] <;> norm_num [stepsQ]
    unfold steps
    rw [h1]
    norm_num
  have hnd : newDim 0 100 (cross_koef 50) = 50 :=
    newDim_eq_of_cast (by rw [hc]; push_cast; norm_num)
  have hok : get_crops_xy 40 40 100 100 50 50 =
      Except.ok (gridOutOf 40 40 100 100 50 50) :=
    get_crops_xy_eq_ok (by rw [hc]; norm_num) (by rw [hc]; norm_num)
      (by norm_num) (by norm_num)
      (by rw [gridOutOf_x_new, hst, hnd]; norm_num)
      (by rw [gridOutOf_y_new, hst, hnd]; norm_num)
  rw [hok]
  show Option.map _ (some (gridOutOf 40 40 100 100 50 50)) = some 0
  rw [Option.map_some']
  congr 1
  rw [gridOutOf_crops, length_mkCrops]
  rw [show gridCells (steps 40 100 (cross_koef 50)) (steps 40 100 (cross_koef 50))
      (newDim (steps 40 100 (cross_koef 50)) 100 (cross_koef 50))
      (newDim (steps 40 100 (cross_koef 50)) 100 (cross_koef 50)) 100 100
      (cross_koef 50) (cross_koef 50) =
        gridCells 0 0 50 50 100 100 (cross_koef 50) (cross_koef 50) by rw [hst, hnd]]
  rfl

/-- C2 amended: an image strictly smaller than one tile still yields exactly
one tile covering the upsampled canvas *provided* the deficit stays below one
stride in each axis, i.e. `shape * overlap / 100 < dim` (always true for zero
overlap).  The truncation toward zero of `int()` then yields step count 1; no
explicit clamping exists, and once `dim <= shape * overlap / 100` the step
count drops to 0 or below and the returned sequence is empty. -/
theorem small_image_single_tile_when_deficit_below_stride
    {h w shape_x shape_y : ℤ} {overlap_x overlap_y : ℚ}
    (hsx : 0 < shape_x) (hsy : 0 < shape_y)
    (hox0 : 0 ≤ overlap_x) (hox1 : overlap_x < 100)
    (hoy0 : 0 ≤ overlap_y) (hoy1 : overlap_y < 100)
    (hw : w < shape_x) (hh : h < shape_y)
    (hwd : (shape_x : ℚ) * overlap_x / 100 < (w : ℚ))
    (hhd : (shape_y : ℚ) * overlap_y / 100 < (h : ℚ)) :
    ∃ out, get_crops_xy h w shape_x shape_y overlap_x overlap_y = Except.ok out ∧
      out.x_steps = 1 ∧ out.y_steps = 1 ∧
      out.x_new = shape_x ∧ out.y_new = shape_y ∧
      out.crops.map (fun r => (r.x_start, r.y_start, r.crop_w, r.crop_h)) =
        [(0, 0, shape_x, shape_y)] := by
  have hcx : 0 < cross_koef overlap_x := cross_koef_pos hox1
  have hcy : 0 < cross_koef overlap_y := cross_koef_pos hoy1
  have hsxq : (0:ℚ) < (shape_x : ℚ) := by exact_mod_cast hsx
  have hsyq : (0:ℚ) < (shape_y : ℚ) := by exact_mod_cast hsy
  have hwq : 0 < (w : ℚ) := lt_of_le_of_lt (by positivity) hwd
  have hhq : 0 < (h : ℚ) := lt_of_le_of_lt (by positivity) hhd
  have hone : ∀ dim shape : ℤ, ∀ ov : ℚ, 0 < (shape : ℚ) → 0 ≤ ov → ov < 100 →
      dim < shape → (shape : ℚ) * ov / 100 < (dim : ℚ) →
      steps dim shape (cross_koef ov) = 1 := by
    intro dim shape ov hsq hov0 hov1 hds hd
    have hc : 0 < cross_koef ov := cross_koef_pos hov1
    have hden : (0:ℚ) < (shape : ℚ) * cross_koef ov := by positivity
    have hnum : ((dim : ℚ) - (shape : ℚ)) < 0 := by
      have : (dim : ℚ) < (shape : ℚ) := by exact_mod_cast hds
      linarith
    have hq0 : stepsQ dim shape (cross_koef ov) < 0 :=
      div_neg_of_neg_of_pos hnum hden
    have hqm1 : (0:ℚ) - 1 < stepsQ dim shape (cross_koef ov) := by
      unfold stepsQ
      rw [lt_div_iff hden]
      unfold cross_koef
      have : (shape : ℚ) * (1 - ov / 100) = (shape : ℚ) - (shape : ℚ) * ov / 100 := by
        ring
      rw [this]
      nlinarith [hd]
    have h1 : pyInt (stepsQ dim shape (cross_koef ov)) = 0 :=
      pyInt_eq_of_neg_bounds hq0 (by exact_mod_cast hqm1) (by exact_mod_cast hq0.le)
    unfold steps
    rw [h1]
    norm_num
  have hstx : steps w shape_x (cross_koef overlap_x) = 1 :=
    hone w shape_x overlap_x hsxq hox0 hox1 hw hwd
  have hsty : steps h shape_y (cross_koef overlap_y) = 1 :=
    hone h shape_y overlap_y hsyq hoy0 hoy1 hh hhd
  have hok : get_crops_xy h w shape_x shape_y overlap_x overlap_y =
      Except.ok (gridOutOf h w shape_x shape_y overlap_x overlap_y) :=
    get_crops_xy_eq_ok (mul_pos hsyq hcy).ne' (mul_pos hsxq hcx).ne'
      (by exact_mod_cast hhq) (by exact_mod_cast hwq)
      (by rw [gridOutOf_x_new, hstx, newDim_one]; omega)
      (by rw [gridOutOf_y_new, hsty, newDim_one]; omega)
  refine ⟨_, hok, ?_, ?_, ?_, ?_, ?_⟩
  · rw [gridOutOf_x_steps, hstx]
  · rw [gridOutOf_y_steps, hsty]
  · rw [gridOutOf_x_new, hstx, newDim_one]
  · rw [gridOutOf_y_new, hsty, newDim_one]
  · rw [gridOutOf_crops, hstx, hsty, newDim_one, newDim_one]
    have hcells : gridCells 1 1 shape_x shape_y shape_x shape_y
        (cross_koef overlap_x) (cross_koef overlap_y) = [(0, 0)] := by
      rw [gridCells_eq_of_fits
        (fun j hj => by
          have : j = 0 := by omega
          subst this
          rw [cellStart_zero]
          omega)
        (fun i hi => by
          have : i = 0 := by omega
          subst this
          rw [cellStart_zero]
          omega)]
      rw [show List.range (Int.toNat 1) = [0] by decide]
      simp only [List.flatMap_cons, List.flatMap_nil, List.map_cons, List.map_nil,
        List.append_nil, cellStart_zero]
    rw [hcells]
    simp only [mkCrops, List.map_cons, List.map_nil]
    rw [npSliceLen_eq_of_fits le_rfl hsx.le (by omega),
      npSliceLen_eq_of_fits le_rfl hsy.le (by omega)]

/-- C2 amended, witness: a 60x60 image with 100x100 tiles and 50% overlap
produces exactly one 100x100 tile at the origin on a 100x100 canvas. -/
theorem small_image_single_tile_witness :
    ∃ out, get_crops_xy 60 60 100 100 50 50 = Except.ok out ∧
      out.x_steps = 1 ∧ out.y_steps = 1 ∧ out.x_new = 100 ∧ out.y_new = 100 ∧
      out.crops.map (fun r => (r.x_start, r.y_start, r.crop_w, r.crop_h)) =
        [(0, 0, 100, 100)] :=
  small_image_single_tile_when_deficit_below_stride (by norm_num) (by norm_num)
    (by norm_num) (by norm_num) (by norm_num) (by norm_num) (by norm_num)
    (by norm_num) (by norm_num) (by norm_num)

/-- C6: under a valid config, every record emitted by `get_crops_xy` satisfies
`x_start + shape_x <= x_new` and `y_start + shape_y <= y_new` (tiles never run
off the resized canvas), and its crop block has exactly `shape_y x shape_x`
pixels under numpy slice semantics. -/
theorem emitted_tile_within_canvas_and_exact_shape
    {h w shape_x shape_y : ℤ} {overlap_x overlap_y : ℚ} {out : GridOut}
    {r : CropRecord}
    (hsx : 0 < shape_x) (hsy : 0 < shape_y)
    (hox0 : 0 ≤ overlap_x) (hox1 : overlap_x < 100)
    (hoy0 : 0 ≤ overlap_y) (hoy1 : overlap_y < 100)
    (hok : get_crops_xy h w shape_x shape_y overlap_x overlap_y = Except.ok out)
    (hr : r ∈ out.crops) :
    r.x_start + shape_x ≤ out.x_new ∧ r.y_start + shape_y ≤ out.y_new ∧
      r.crop_h = shape_y ∧ r.crop_w = shape_x := by
  have hcx : 0 < cross_koef overlap_x := cross_koef_pos hox1
  have hcy : 0 < cross_koef overlap_y := cross_koef_pos hoy1
  have hout := get_crops_xy_ok_inv hok
  subst hout
  rw [gridOutOf_crops] at hr
  obtain ⟨p, hp, _, _, _, hx, hy, hch, hcw⟩ := mem_mkCrops hr
  obtain ⟨hbx, hby, i, j, _, _, hpeq⟩ := mem_gridCells hp
  have hp1 : 0 ≤ p.1 := by
    rw [hpeq]
    exact cellStart_nonneg hsx.le hcx.le j
  have hp2 : 0 ≤ p.2 := by
    rw [hpeq]
    exact cellStart_nonneg hsy.le hcy.le i
  refine ⟨?_, ?_, ?_, ?_⟩
  · rw [hx, gridOutOf_x_new]
    exact hbx
  · rw [hy, gridOutOf_y_new]
    exact hby
  · rw [hch]
    exact npSliceLen_eq_of_fits hp2 hsy.le hby
  · rw [hcw]
    exact npSliceLen_eq_of_fits hp1 hsx.le hbx

/-- C6 witness: the first record of the 1000x1000 / 500 / 0 scenario lies
within the canvas and has an exactly 500x500 crop. -/
theorem emitted_tile_within_canvas_witness :
    (⟨innitialBuf, resizedBuf, resizedBuf, 500, 500, 1, 0, 0⟩ : CropRecord).x_start
        + 500 ≤ 1000 ∧
      (⟨innitialBuf, resizedBuf, resizedBuf, 500, 500, 1, 0, 0⟩ : CropRecord).y_start
        + 500 ≤ 1000 ∧
      (⟨innitialBuf, resizedBuf, resizedBuf, 500, 500, 1, 0, 0⟩ : CropRecord).crop_h = 500 ∧
      (⟨innitialBuf, resizedBuf, resizedBuf, 500, 500, 1, 0, 0⟩ : CropRecord).crop_w = 500 :=
  emitted_tile_within_canvas_and_exact_shape (by norm_num) (by norm_num) (by norm_num)
    (by norm_num) (by norm_num) (by norm_num) scenario1000_eval
    (List.mem_cons_self _ _)

/-- C4 counterexample: with overlap percentages of 150 (>= 100) the
constructor pipeline raises nothing at all: `get_crops_xy` completes and
returns an *empty* crop list (both step counts are -1), so no configuration
error is raised before tiling, refuting the fail-fast claim. -/
theorem overlap_150_completes_without_error :
    get_crops_xy 1000 1000 500 500 150 150 =
      Except.ok
        { y_steps := -1
          x_steps := -1
          y_new := 1000
          x_new := 1000
          crops := [] } := by
  have hc : cross_koef 150 = -(1/2) := by norm_num [cross_koef]
  have hst : steps 1000 500 (cross_koef 150) = -1 := by
    have h1 : stepsQ 1000 500 (cross_koef 150) = ((-2 : ℤ) : ℚ) := by
      rw [hc]; norm_num [stepsQ]
    rw [steps_eq_of_cast h1]
    norm_num
  have hnd : newDim (-1) 500 (cross_koef 150) = 1000 :=
    newDim_eq_of_cast (by rw [hc]; push_cast; norm_num)
  have hok : get_crops_xy 1000 1000 500 500 150 150 =
      Except.ok (gridOutOf 1000 1000 500 500 150 150) :=
    get_crops_xy_eq_ok (by rw [hc]; norm_num) (by rw [hc]; norm_num)
      (by norm_num) (by norm_num)
      (by rw [gridOutOf_x_new, hst, hnd]; norm_num)
      (by rw [gridOutOf_y_new, hst, hnd]; norm_num)
  rw [hok]
  congr 1
  show gridOutOf 1000 1000 500 500 150 150 = _
  unfold gridOutOf
  dsimp only
  rw [hst, hnd]
  rfl

/-- C4 amended: the constructor performs no configuration validation.
An overlap of exactly 100 (or a zero tile dimension) surfaces as a
`ZeroDivisionError` inside `get_crops_xy` - after the model has been loaded,
not as a fail-fast configuration check; an empty input image surfaces as a
`cv2.error` inside `cv2.resize`; and an overlap above 100 can complete
without any error at all (see the counterexample). -/
theorem no_configuration_validation :
    (∀ h w shape_x : ℤ, ∀ shape_y : ℤ, ∀ overlap_x : ℚ,
        get_crops_xy h w shape_x shape_y overlap_x 100 =
          Except.error PyError.zeroDivisionError) ∧
      (∀ h w shape_x : ℤ, ∀ overlap_x overlap_y : ℚ,
        get_crops_xy h w shape_x 0 overlap_x overlap_y =
          Except.error PyError.zeroDivisionError) ∧
      get_crops_xy 0 0 700 700 25 25 = Except.error PyError.cvError := by
  refine ⟨?_, ?_, ?_⟩
  · intro h w shape_x shape_y overlap_x
    unfold get_crops_xy
    rw [pyDiv, if_pos (by norm_num [cross_koef])]
    rfl
  · intro h w shape_x overlap_x overlap_y
    unfold get_crops_xy pyDiv
    rw [if_pos (by norm_num : ((0 : ℤ) : ℚ) * cross_koef overlap_y = 0)]
    rfl
  · have hc : cross_koef 25 = 3/4 := by norm_num [cross_koef]
    unfold get_crops_xy
    rw [pyDiv, if_neg (by rw [hc]; norm_num)]
    simp only [Bind.bind, Except.bind]
    rw [if_pos (Or.inl (by norm_num))]

/-! ### Heap model of the numpy buffers (lines 125-126, 145, 154-161) -/

/-- A heap of pixel buffers: buffer id, row, column to pixel value. -/
def Heap : Type := ℕ → ℤ → ℤ → ℤ

/-- Read one pixel of buffer `b`. -/
def readPix (hp : Heap) (b : ℕ) (y x : ℤ) : ℤ := hp b y x

/-- Write one pixel of buffer `b`. -/
def writePix (hp : Heap) (b : ℕ) (y x : ℤ) (v : ℤ) : Heap :=
  fun b2 y2 x2 => if b2 = b ∧ y2 = y ∧ x2 = x then v else hp b2 y2 x2

/-- Read a record's crop at crop-local coordinates.  numpy basic slicing
(line 145) yields a view, so the access goes to the record's underlying
buffer at the window offset. -/
def readCrop (hp : Heap) (r : CropRecord) (dy dx : ℤ) : ℤ :=
  readPix hp r.cropBuf (r.y_start + dy) (r.x_start + dx)

/-- Write a record's crop at crop-local coordinates: the write lands in the
record's underlying buffer at the window offset. -/
def writeCrop (hp : Heap) (r : CropRecord) (dy dx : ℤ) (v : ℤ) : Heap :=
  writePix hp r.cropBuf (r.y_start + dy) (r.x_start + dx) v

/-- Heap effect of lines 125-126 of `get_crops_xy`:
`image_innitial = image_full.copy()` fills the fresh buffer `innitialBuf`
with a copy of the caller's pixels, and `image_full = cv2.resize(...)` fills
the fresh buffer `resizedBuf` with resampled contents (`resample` stands for
OpenCV's resampling, an arbitrary function of the source pixels and target
size).  The caller's buffer is never written. -/
def crops_xy_heap (resample : (ℤ → ℤ → ℤ) → ℤ → ℤ → ℤ → ℤ → ℤ)
    (hp : Heap) (y_new x_new : ℤ) : Heap :=
  fun b => if b = innitialBuf then hp callerBuf
    else if b = resizedBuf then resample (hp callerBuf) y_new x_new
    else hp b

/-- The all-zero heap, used to instantiate concrete aliasing scenarios. -/
def zeroHeap : Heap := fun _ _ _ => 0

/-- C9 counterexample: the first record of the 1000x1000 / 500 / 0 scenario
stores its crop as a *view* of the resized canvas (`cropBuf = resizedBuf`);
writing value 42 at the crop's local (0,0) changes the shared resized canvas
pixel (0,0) from 0 to 42 - mutating a record's crop is visible through the
canvas, refuting the claim that the crop is an independently owned copy. -/
theorem crop_write_corrupts_shared_canvas :
    (get_crops_xy 1000 1000 500 500 0 0).toOption.map (fun o => o.crops.head?) =
      some (some ⟨innitialBuf, resizedBuf, resizedBuf, 500, 500, 1, 0, 0⟩) ∧
      readPix (writeCrop zeroHeap
          ⟨innitialBuf, resizedBuf, resizedBuf, 500, 500, 1, 0, 0⟩ 0 0 42)
        resizedBuf 0 0 = 42 ∧
      readPix zeroHeap resizedBuf 0 0 = 0 ∧ (42 : ℤ) ≠ 0 := by
  refine ⟨?_, ?_, rfl, by norm_num⟩
  · rw [scenario1000_eval]
    rfl
  · rfl

/-- C9 amended: every record emitted by `get_crops_xy` stores its crop as a
view sharing the resized canvas's buffer (line 145 slices without `.copy()`),
so writing any pixel through a record's crop writes the shared resized canvas
at the corresponding position.  Only the visualization path (line 150) copies. -/
theorem crop_is_view_of_resized_canvas
    {h w shape_x shape_y : ℤ} {overlap_x overlap_y : ℚ} {out : GridOut}
    {r : CropRecord}
    (hok : get_crops_xy h w shape_x shape_y overlap_x overlap_y = Except.ok out)
    (hr : r ∈ out.crops) :
    r.cropBuf = resizedBuf ∧
      ∀ (hp : Heap) (dy dx v : ℤ),
        readPix (writeCrop hp r dy dx v) resizedBuf (r.y_start + dy) (r.x_start + dx) = v := by
  have hout := get_crops_xy_ok_inv hok
  subst hout
  rw [gridOutOf_crops] at hr
  obtain ⟨p, _, _, _, hbuf, _, _, _, _⟩ := mem_mkCrops hr
  refine ⟨hbuf, ?_⟩
  intro hp dy dx v
  unfold writeCrop writePix readPix
  rw [hbuf]
  simp

/-- C9 amended, witness: instantiated at the first record of the
1000x1000 / 500 / 0 scenario with the zero heap. -/
theorem crop_is_view_witness :
    (⟨innitialBuf, resizedBuf, resizedBuf, 500, 500, 1, 0, 0⟩ : CropRecord).cropBuf =
        resizedBuf ∧
      ∀ (hp : Heap) (dy dx v : ℤ),
        readPix (writeCrop hp ⟨innitialBuf, resizedBuf, resizedBuf, 500, 500, 1, 0, 0⟩
            dy dx v)
          resizedBuf ((0 : ℤ) + dy) ((0 : ℤ) + dx) = v :=
  crop_is_view_of_resized_canvas scenario1000_eval (List.mem_cons_self _ _)

/-- C10: `get_crops_xy` never writes the caller's buffer: the heap effect
leaves `callerBuf` untouched, the pre-resize copy `innitialBuf` holds the
caller's pixel contents (the copy is taken before the resize), and every
emitted record references only `innitialBuf` (as `source_image`) and
`resizedBuf` (as `source_image_resized` and as the crop's buffer) - hence any
later write to the caller's buffer changes none of the record's stored images. -/
theorem caller_image_not_mutated_and_not_aliased
    {h w shape_x shape_y : ℤ} {overlap_x overlap_y : ℚ} {out : GridOut}
    {r : CropRecord}
    (hok : get_crops_xy h w shape_x shape_y overlap_x overlap_y = Except.ok out)
    (hr : r ∈ out.crops) :
    r.source_image = innitialBuf ∧ r.source_image_resized = resizedBuf ∧
      r.cropBuf = resizedBuf ∧
      (∀ resample hp y_new x_new y x,
        crops_xy_heap resample hp y_new x_new callerBuf y x = hp callerBuf y x ∧
        crops_xy_heap resample hp y_new x_new innitialBuf y x = hp callerBuf y x) ∧
      (∀ (hp : Heap) (y x v dy dx : ℤ),
        readPix (writePix hp callerBuf y x v) r.source_image dy dx =
          readPix hp r.source_image dy dx ∧
        readPix (writePix hp callerBuf y x v) r.source_image_resized dy dx =
          readPix hp r.source_image_resized dy dx ∧
        readCrop (writePix hp callerBuf y x v) r dy dx = readCrop hp r dy dx) := by
  have hout := get_crops_xy_ok_inv hok
  subst hout
  rw [gridOutOf_crops] at hr
  obtain ⟨p, _, hsrc, hres, hbuf, _, _, _, _⟩ := mem_mkCrops hr
  refine ⟨hsrc, hres, hbuf, ?_, ?_⟩
  · intro resample hp y_new x_new y x
    constructor
    · unfold crops_xy_heap
      rw [if_neg (by norm_num [callerBuf, innitialBuf]),
        if_neg (by norm_num [callerBuf, resizedBuf])]
    · unfold crops_xy_heap
      rw [if_pos rfl]
  · intro hp y x v dy dx
    refine ⟨?_, ?_, ?_⟩
    · unfold readPix writePix
      rw [hsrc, if_neg (by norm_num [callerBuf, innitialBuf])]
    · unfold readPix writePix
      rw [hres, if_neg (by norm_num [callerBuf, resizedBuf])]
    · unfold readCrop readPix writePix
      rw [hbuf, if_neg (by norm_num [callerBuf, resizedBuf])]

/-- C10 witness: instantiated at the first record of the 1000x1000 / 500 / 0
scenario: writing 42 into the caller's buffer at (3,4) is invisible through
the record's source image, resized image, and crop view over the zero heap. -/
theorem caller_image_not_mutated_witness :
    (⟨innitialBuf, resizedBuf, resizedBuf, 500, 500, 1, 0, 0⟩ : CropRecord).source_image =
        innitialBuf ∧
      readCrop (writePix zeroHeap callerBuf 3 4 42)
          ⟨innitialBuf, resizedBuf, resizedBuf, 500, 500, 1, 0, 0⟩ 0 0 =
        readCrop zeroHeap ⟨innitialBuf, resizedBuf, resizedBuf, 500, 500, 1, 0, 0⟩ 0 0 := by
  have happ := caller_image_not_mutated_and_not_aliased scenario1000_eval
    (List.mem_cons_self _ _)
  exact ⟨happ.1, (happ.2.2.2.2 zeroHeap 3 4 42 0 0).2.2⟩

/-! ### `_detect_objects` (lines 170-186) and the per-crop pipeline -/

/-- A detection: bounding geometry in pixel coordinates, class id, confidence. -/
structure Det where
  x1 : ℚ
  y1 : ℚ
  x2 : ℚ
  y2 : ℚ
  cls : ℕ
  conf : ℚ
deriving DecidableEq

/-- Failure of the external detector on one crop (an exception escaping the
inference call). -/
inductive DetectorError where
  | raised
deriving DecidableEq

/-- Mutable state of one `CropElement` during `_detect_objects`: its
geometry record, its tile-local detections, and its detections in the
outer coordinate space. -/
structure InferCrop where
  crec : CropRecord
  detections : List Det
  detections_original : List Det
deriving DecidableEq

/-- Modelled from the spec: `CropElement.calculate_inference` (in
`elements/CropElement.py`, which is not among the sources here) invokes the
external detector on the crop and stores the raw tile-local detections
(spec 4.2 steps 1-2); a detector failure propagates to the caller - the spec
describes no catching inside the per-record step. -/
def calculate_inference (det : CropRecord → Except DetectorError (List Det))
    (c : InferCrop) : Except DetectorError InferCrop :=
  (det c.crec).map fun ds => { c with detections := ds }

/-- Translation by the tile origin, spec 4.2 step 3 first half. -/
def translateDet (dx dy : ℤ) (d : Det) : Det :=
  { d with x1 := d.x1 + dx, y1 := d.y1 + dy, x2 := d.x2 + dx, y2 := d.y2 + dy }

/-- Modelled from the spec: `CropElement.calculate_real_values` translates
every detection by `(+x_start, +y_start)` into resized-canvas space. -/
def calculate_real_values (c : InferCrop) : InferCrop :=
  { c with detections_original :=
      c.detections.map (translateDet c.crec.x_start c.crec.y_start) }

/-- Per-axis rescale, spec 4.2 step 3 second half. -/
def scaleDet (fx fy : ℚ) (d : Det) : Det :=
  { d with x1 := d.x1 * fx, y1 := d.y1 * fy, x2 := d.x2 * fx, y2 := d.y2 * fy }

/-- Modelled from the spec: `CropElement.resize_results` rescales the
original-coordinate detections by
`(originalWidth / resizedCanvasWidth, originalHeight / resizedCanvasHeight)`. -/
def resize_results_step (w h x_new y_new : ℤ) (c : InferCrop) : InferCrop :=
  { c with
    detections_original :=
      c.detections_original.map (scaleDet ((w : ℚ) / (x_new : ℚ)) ((h : ℚ) / (y_new : ℚ))) }

/-- `_detect_objects` (lines 180-186): for each crop in order run
`calculate_inference`, then `calculate_real_values`, then - only if the
`resize_results` flag is set - `resize_results`.  The loop has no exception
handling, so a raising inference call aborts it; the model returns the
processed prefix, the escaping error (if any), and the crops left
unprocessed (the failing one included, its fields untouched). -/
def detect_objects (det : CropRecord → Except DetectorError (List Det))
    (resize_flag : Bool) (w h x_new y_new : ℤ) :
    List InferCrop → List InferCrop × Option DetectorError × List InferCrop
  | [] => ([], none, [])
  | c :: cs =>
      match calculate_inference det c with
      | Except.error e => ([], some e, c :: cs)
      | Except.ok c1 =>
          let c2 := calculate_real_values c1
          let c3 := if resize_flag then resize_results_step w h x_new y_new c2 else c2
          let rest := detect_objects det resize_flag w h x_new y_new cs
          (c3 :: rest.1, rest.2.1, rest.2.2)

/-- C3 counterexample: with two crops and a detector that raises on the first
crop (and would succeed on the second), `_detect_objects` processes *nothing*:
the error escapes, no record gets an error marker or results, and the second
crop is left unprocessed - refuting the claim that processing continues with
the next crop after a per-crop failure. -/
theorem inference_failure_aborts_whole_run :
    detect_objects
      (fun r => if r.number_of_crop = 1 then Except.error DetectorError.raised
        else Except.ok [⟨0, 0, 10, 10, 0, 1⟩])
      false 1000 1000 1000 1000
      [⟨⟨innitialBuf, resizedBuf, resizedBuf, 500, 500, 1, 0, 0⟩, [], []⟩,
       ⟨⟨innitialBuf, resizedBuf, resizedBuf, 500, 500, 2, 500, 0⟩, [], []⟩] =
      ([], some DetectorError.raised,
       [⟨⟨innitialBuf, resizedBuf, resizedBuf, 500, 500, 1, 0, 0⟩, [], []⟩,
        ⟨⟨innitialBuf, resizedBuf, resizedBuf, 500, 500, 2, 500, 0⟩, [], []⟩]) := rfl

/-- C3 amended: `_detect_objects` has no exception handling: when the
detector call raises on some crop, every earlier crop has been processed
(one output record each), the error propagates, and the failing crop together
with every later crop is left unprocessed - the run aborts instead of
continuing with the next crop. -/
theorem first_inference_failure_aborts_run
    (det : CropRecord → Except DetectorError (List Det)) (resize_flag : Bool)
    (w h x_new y_new : ℤ) (pre : List InferCrop) (c : InferCrop)
    (post : List InferCrop) (e : DetectorError)
    (hpre : ∀ p ∈ pre, ∃ ds, det p.crec = Except.ok ds)
    (herr : det c.crec = Except.error e) :
    ∃ ps, detect_objects det resize_flag w h x_new y_new (pre ++ c :: post) =
        (ps, some e, c :: post) ∧
      ps.length = pre.length := by
  induction pre with
  | nil =>
      refine ⟨[], ?_, rfl⟩
      show (match calculate_inference det c with
        | Except.error e => ([], some e, c :: post)
        | Except.ok c1 => _) = _
      rw [show calculate_inference det c = Except.error e by
        unfold calculate_inference
        rw [herr]
        rfl]
  | cons p ps ih =>
      obtain ⟨ds, hds⟩ := hpre p (List.mem_cons_self p ps)
      obtain ⟨qs, hqs, hlen⟩ := ih fun q hq => hpre q (List.mem_cons_of_mem p hq)
      have hstep : calculate_inference det p = Except.ok { p with detections := ds } := by
        unfold calculate_inference
        rw [hds]
        rfl
      refine ⟨(if resize_flag then
          resize_results_step w h x_new y_new (calculate_real_values { p with detections := ds })
        else calculate_real_values { p with detections := ds }) :: qs, ?_, by
          rw [List.length_cons, hlen, List.length_cons]⟩
      show (match calculate_inference det p with
        | Except.error e => ([], some e, p :: (ps ++ c :: post))
        | Except.ok c1 => _) = _
      rw [hstep]
      simp only [List.append_eq, hqs]

/-- C3 amended, witness: one successfully processed crop before a failing
one: exactly the first is processed, the error escapes, the failing crop is
left in the unprocessed remainder. -/
theorem first_inference_failure_aborts_run_witness :
    ∃ ps, detect_objects
        (fun r => if r.number_of_crop = 2 then Except.error DetectorError.raised
          else Except.ok [⟨0, 0, 10, 10, 0, 1⟩])
        false 1000 1000 1000 1000
        ([⟨⟨innitialBuf, resizedBuf, resizedBuf, 500, 500, 1, 0, 0⟩, [], []⟩] ++
          ⟨⟨innitialBuf, resizedBuf, resizedBuf, 500, 500, 2, 500, 0⟩, [], []⟩ :: []) =
        (ps, some DetectorError.raised,
          ⟨⟨innitialBuf, resizedBuf, resizedBuf, 500, 500, 2, 500, 0⟩, [], []⟩ :: []) ∧
      ps.length =
        [(⟨⟨innitialBuf, resizedBuf, resizedBuf, 500, 500, 1, 0, 0⟩, [], []⟩ : InferCrop)].length :=
  first_inference_failure_aborts_run _ false 1000 1000 1000 1000 _ _ _ _
    (by
      intro p hp
      rw [List.mem_singleton] at hp
      subst hp
      exact ⟨[⟨0, 0, 10, 10, 0, 1⟩], rfl⟩)
    rfl

/-- C8: when the detector succeeds on every crop, `_detect_objects` processes
all crops; each output record's original-coordinate detections are the
tile-local detections translated by `(+x_start, +y_start)` and then - exactly
when the `resize_results` flag is true - rescaled by
`(w / x_new, h / y_new)`; when the flag is false the stored detections stay in
resized-canvas space (translation only). -/
theorem rescale_applied_iff_flag_and_after_translation
    (det : CropRecord → Except DetectorError (List Det)) (resize_flag : Bool)
    (w h x_new y_new : ℤ) (crops : List InferCrop)
    (hall : ∀ c ∈ crops, ∃ ds, det c.crec = Except.ok ds) :
    ∃ ps, detect_objects det resize_flag w h x_new y_new crops = (ps, none, []) ∧
      List.Forall₂ (fun c p => ∃ ds, det c.crec = Except.ok ds ∧
        p.detections = ds ∧
        p.detections_original = (if resize_flag then
            (ds.map (translateDet c.crec.x_start c.crec.y_start)).map
              (scaleDet ((w : ℚ) / (x_new : ℚ)) ((h : ℚ) / (y_new : ℚ)))
          else ds.map (translateDet c.crec.x_start c.crec.y_start))) crops ps := by
  induction crops with
  | nil => exact ⟨[], rfl, List.Forall₂.nil⟩
  | cons c cs ih =>
      obtain ⟨ds, hds⟩ := hall c (List.mem_cons_self c cs)
      obtain ⟨qs, hqs, hfa⟩ := ih fun q hq => hall q (List.mem_cons_of_mem c hq)
      have hstep : calculate_inference det c = Except.ok { c with detections := ds } := by
        unfold calculate_inference
        rw [hds]
        rfl
      refine ⟨(if resize_flag then
          resize_results_step w h x_new y_new (calculate_real_values { c with detections := ds })
        else calculate_real_values { c with detections := ds }) :: qs, ?_, ?_⟩
      · show (match calculate_inference det c with
          | Except.error e => ([], some e, c :: cs)
          | Except.ok c1 => _) = _
        rw [hstep]
        simp only [hqs]
      · refine List.Forall₂.cons ?_ hfa
        cases resize_flag
        · exact ⟨ds, hds, rfl, rfl⟩
        · exact ⟨ds, hds, rfl, rfl⟩

/-- C8 witness: a single crop, succeeding detector, flag enabled: the output
record carries the translated-then-scaled detections. -/
theorem rescale_applied_iff_flag_witness :
    ∃ ps, detect_objects (fun _ => Except.ok [⟨1, 2, 3, 4, 0, 1⟩]) true
        1000 1000 500 500
        [⟨⟨innitialBuf, resizedBuf, resizedBuf, 500, 500, 1, 0, 0⟩, [], []⟩] =
        (ps, none, []) ∧
      List.Forall₂ (fun (c p : InferCrop) => ∃ ds,
        (fun (_ : CropRecord) =>
            (Except.ok [(⟨1, 2, 3, 4, 0, 1⟩ : Det)] : Except DetectorError (List Det))) c.crec =
          Except.ok ds ∧
        p.detections = ds ∧
        p.detections_original = (if true then
            (ds.map (translateDet c.crec.x_start c.crec.y_start)).map
              (scaleDet ((1000 : ℚ) / ((500 : ℤ) : ℚ)) ((1000 : ℚ) / ((500 : ℤ) : ℚ)))
          else ds.map (translateDet c.crec.x_start c.crec.y_start)))
        [⟨⟨innitialBuf, resizedBuf, resizedBuf, 500, 500, 1, 0, 0⟩, [], []⟩] ps :=
  rescale_applied_iff_flag_and_after_translation _ true 1000 1000 500 500 _
    (fun c _ => ⟨[⟨1, 2, 3, 4, 0, 1⟩], rfl⟩)

/-- C5 witness: instantiated at the 1000x1000 / 500 / 0 configuration. -/
theorem crops_count_eq_steps_witness :
    ∃ out, get_crops_xy 1000 1000 500 500 0 0 = Except.ok out ∧
      out.x_steps = ⌊((1000 : ℚ) - ((500 : ℤ) : ℚ)) / (((500 : ℤ) : ℚ) * (1 - 0 / 100))⌋ + 1 ∧
      out.y_steps = ⌊((1000 : ℚ) - ((500 : ℤ) : ℚ)) / (((500 : ℤ) : ℚ) * (1 - 0 / 100))⌋ + 1 ∧
      out.crops.length = (out.x_steps * out.y_steps).toNat ∧
      out.crops.map CropRecord.number_of_crop =
        (List.range out.crops.length).map (fun k : ℕ => (k : ℤ) + 1) :=
  crops_count_eq_steps_and_indices_contiguous (by norm_num) (by norm_num) (by norm_num)
    (by norm_num) (by norm_num) (by norm_num) (by norm_num) (by norm_num)

end YoloPatch
